import Mathlib

/-!
# Verification of the Calculo generation pipeline

Shallow embedding of the core generation-and-parsing logic of the Calculo
repository:

* `src/App.tsx` — `parseGeminiResponse` (regex section extractor);
* `src/services/gemini.ts` — `getAnalystSummary`, `getDifficultyInstruction`,
  `runArchitectMode` / `runFlashcardMode` / `runQuizMode` prompt construction,
  and the `generateMathContent` orchestrator;
* `src/utils/retry.ts` — `withRetry` and the `ProblemCache` TTL cache.

Strings are modelled as Lean `String` / `List Char`.  JavaScript's `\s`,
`trim`, `toLowerCase`/`toUpperCase` are modelled on the ASCII fragment (all
pattern text in the sources is ASCII).  Regex matching is embedded as the
deterministic leftmost-match scan that the concrete patterns of
`parseGeminiResponse` perform: every pattern there is of the shape
`H\s*(?:phrase1|phrase2)` with a lookahead `(?=next|$|### Visualization|## Visualization)`,
so matching is literal prefix comparison (case-insensitive), maximal
whitespace runs, and a first-position scan.  Network calls, `Date.now()` and
`JSON.parse` are oracles supplied through an environment record.
-/

namespace Calculo

/-- JavaScript `\s` on the ASCII range (space, tab, LF, CR, VT, FF).
JS also treats some non-ASCII code points as whitespace; the sources only
ever produce/compare ASCII whitespace. -/
def jsWs (c : Char) : Bool :=
  c == ' ' || c == '\t' || c == '\n' || c == '\r' || c == '\x0b' || c == '\x0c'

/-- JavaScript `String.prototype.trim` (both ends), on char lists. -/
def jsTrim (s : List Char) : List Char :=
  ((s.dropWhile jsWs).reverse.dropWhile jsWs).reverse

/-- ASCII lower-casing of one char (JS `toLowerCase`, ASCII fragment):
`'A'`–`'Z'` (codes 65–90) shift down to `'a'`–`'z'`, everything else is
unchanged. -/
def jsToLowerChar (c : Char) : Char :=
  if 65 ≤ c.toNat ∧ c.toNat ≤ 90 then Char.ofNat (c.toNat + 32) else c

/-- ASCII upper-casing of one char (JS `toUpperCase`, ASCII fragment):
`'a'`–`'z'` (codes 97–122) shift up to `'A'`–`'Z'`. -/
def jsToUpperChar (c : Char) : Char :=
  if 97 ≤ c.toNat ∧ c.toNat ≤ 122 then Char.ofNat (c.toNat - 32) else c

/-- JS `topic.toLowerCase()`. -/
def jsToLower (s : String) : String := ⟨s.data.map jsToLowerChar⟩

/-- JS `topic.toUpperCase()`. -/
def jsToUpper (s : String) : String := ⟨s.data.map jsToUpperChar⟩

/-- JS `s.trim()` on `String`. -/
def jsTrimStr (s : String) : String := ⟨jsTrim s.data⟩

/-- Case-insensitive comparison of two chars, as the regex `i` flag performs
on the ASCII patterns of the parser. -/
def ciEq (p c : Char) : Bool := jsToLowerChar p == jsToLowerChar c

/-- Case-insensitive "pattern is a literal prefix of the text". -/
def ciIsPrefixB : List Char → List Char → Bool
  | [], _ => true
  | _ :: _, [] => false
  | p :: ps, c :: cs => ciEq p c && ciIsPrefixB ps cs

/-- Case-sensitive "pattern is a literal prefix of the text" (used for the
`#` markers and the fence strings, which have no letters / are matched by
regexes without the `i` flag). -/
def litIsPrefixB : List Char → List Char → Bool
  | [], _ => true
  | _ :: _, [] => false
  | p :: ps, c :: cs => p == c && litIsPrefixB ps cs

/-- Leftmost-scan substring test (JS `RegExp.test` for an alternation of
literal keywords over an already-lowercased string). -/
def hasSubstr (pat : List Char) : List Char → Bool
  | [] => litIsPrefixB pat []
  | c :: t => litIsPrefixB pat (c :: t) || hasSubstr pat t

/-- Length of the maximal `\s*` run at the head of the text. -/
def wsCount (s : List Char) : Nat := (s.takeWhile jsWs).length

/-- Try the phrase alternatives in regex order; return the number of chars
the first matching phrase consumes. -/
def matchPhrase : List (List Char) → List Char → Option Nat
  | [], _ => none
  | p :: ps, s => if ciIsPrefixB p s then some p.length else matchPhrase ps s

/-- Match `#^k \s* (phrase1|phrase2|...)` at the head of `s`; returns the
total number of chars consumed. -/
def matchHeaderWith (k : Nat) (phrases : List (List Char)) (s : List Char) : Option Nat :=
  if litIsPrefixB (List.replicate k '#') s then
    let rest := s.drop k
    let w := wsCount rest
    match matchPhrase phrases (rest.drop w) with
    | some l => some (k + w + l)
    | none => none
  else none

/-- Match the parser's header pattern `(?:###|##)\s*(phrases)` at the head of
`s` (the regex alternation tries `###` before `##`). -/
def matchHeader (phrases : List (List Char)) (s : List Char) : Option Nat :=
  match matchHeaderWith 3 phrases s with
  | some c => some c
  | none => matchHeaderWith 2 phrases s

/-- Leftmost position (and consumed length) at which the header pattern
matches — the position JS leftmost-match regex search selects. -/
def findHeader (phrases : List (List Char)) : List Char → Option (Nat × Nat)
  | [] =>
    match matchHeader phrases [] with
    | some c => some (0, c)
    | none => none
  | c :: t =>
    match matchHeader phrases (c :: t) with
    | some k => some (0, k)
    | none => (findHeader phrases t).map fun pc => (pc.1 + 1, pc.2)

/-- The two literal alternatives `### Visualization | ## Visualization` that
`extractSection` always appends to the lookahead. -/
def visLit3 : List Char := "### Visualization".data

def visLit2 : List Char := "## Visualization".data

/-- Does the lookahead `(?=nextHeader|$|### Visualization|## Visualization)`
succeed at this suffix of the text?  `next = none` encodes the literal `$`
next-pattern used for the Visualization section itself. -/
def sectionEnd (next : Option (List (List Char))) (s : List Char) : Bool :=
  (match next with
   | some phs => (matchHeader phs s).isSome
   | none => false)
  || s.isEmpty || ciIsPrefixB visLit3 s || ciIsPrefixB visLit2 s

/-- Number of chars the lazy `[\s\S]*?` group consumes: the distance to the
first position at which the lookahead succeeds (it always succeeds at the
end of the text, where `$` holds). -/
def findEnd (next : Option (List (List Char))) : List Char → Nat
  | [] => 0
  | c :: t => if sectionEnd next (c :: t) then 0 else findEnd next t + 1

/-- `extractSection` of `App.tsx`: match
`headerPattern\s*([\s\S]*?)(?=nextHeaderPattern|$|### Visualization|## Visualization)`
case-insensitively against the text and return the trimmed first group, or
`null` when the header pattern occurs nowhere. -/
def extractSection (phrases : List (List Char)) (next : Option (List (List Char)))
    (text : List Char) : Option (List Char) :=
  match findHeader phrases text with
  | none => none
  | some pc =>
    let rest := text.drop (pc.1 + pc.2)
    some (jsTrim (rest.take (findEnd next rest)))

/-- Remove every (leftmost, non-overlapping) occurrence of `pat`, as JS
`replace(/pat/g, '')` does for a literal pattern. -/
def removeAll (pat : List Char) : List Char → List Char
  | [] => []
  | c :: t =>
    if pat ≠ [] ∧ pat.isPrefixOf (c :: t) then removeAll pat ((c :: t).drop pat.length)
    else c :: removeAll pat t
termination_by s => s.length
decreasing_by
  · simp only [List.length_drop, List.length_cons]
    rename_i hp
    have h1 : 1 ≤ pat.length := by
      cases pat with
      | nil => exact absurd rfl hp.1
      | cons a l => simp
    omega
  · simp

/-- `cleanCode` of `App.tsx`: strip the ```` ```python ```` language fence and
all remaining ```` ``` ```` fences, then trim. -/
def cleanCode (code : List Char) : List Char :=
  jsTrim (removeAll "```".data (removeAll "```python".data code))

/-- Section header phrase constants (from the regexes in `parseGeminiResponse`). -/
def generatedProblemP : List Char := "Generated Problem".data

def problemStatementP : List Char := "Problem Statement".data

def difficultyAnalysisP : List Char := "Difficulty Analysis".data

def difficultyP : List Char := "Difficulty".data

def stepByStepP : List Char := "Step-by-Step".data

def stepByStepSolutionP : List Char := "Step-by-Step Solution".data

def comprehensiveSolutionP : List Char := "Comprehensive Solution".data

def finalAnswerP : List Char := "Final Answer".data

def visualizationP : List Char := "Visualization".data

def visualizationCodeP : List Char := "Visualization Code".data

/-- Result record of `parseGeminiResponse` (the six fields it constructs). -/
structure ParsedProblem where
  problem : Option (List Char)
  difficultyAnalysis : Option (List Char)
  solution : Option (List Char)
  finalResult : Option (List Char)
  pythonCode : Option (List Char)
  rawResponse : List Char
deriving DecidableEq

/-- `parseGeminiResponse` of `App.tsx` (lines 87–106): extract the five
sections with their specific header and next-header patterns. -/
def parseGeminiResponse (text : List Char) : ParsedProblem where
  problem := extractSection [generatedProblemP, problemStatementP] (some [difficultyP]) text
  difficultyAnalysis := extractSection [difficultyAnalysisP, difficultyP] (some [stepByStepP]) text
  solution := extractSection [stepByStepSolutionP, comprehensiveSolutionP] (some [finalAnswerP]) text
  finalResult := extractSection [finalAnswerP] (some [visualizationP]) text
  pythonCode := (extractSection [visualizationCodeP, visualizationP] none text).map cleanCode
  rawResponse := text

/-! ## `src/utils/retry.ts` — `withRetry`

The awaited operation is modelled as a map from the attempt index to that
attempt's outcome.  The backoff `setTimeout` delays are timing-only effects
and are not part of the value model. -/

/-- Outcome of `withRetry`: the fulfilled value, the rejection with the last
attempt's own error (`throw error` at `i === maxRetries - 1`), or the
`'Max retries exceeded'` rejection reached only when the loop exits without
returning or throwing.  Each carries the number of invocations performed. -/
inductive RetryResult (ε α : Type) where
  | ok (a : α) (calls : Nat)
  | err (e : ε) (calls : Nat)
  | generic (calls : Nat)
deriving DecidableEq

/-- Number of times the operation was invoked. -/
def RetryResult.calls {ε α : Type} : RetryResult ε α → Nat
  | .ok _ n => n
  | .err _ n => n
  | .generic n => n

/-- The `for (let i = 0; i < maxRetries; i++)` loop of `withRetry`; `fuel`
bounds the iteration count (it starts at `maxRetries`, so the guard
`i < maxRetries` always fails before the fuel does). -/
def withRetryGo {ε α : Type} (fn : Nat → Except ε α) (maxRetries i : Nat) :
    Nat → RetryResult ε α
  | 0 => .generic i
  | fuel + 1 =>
    if i < maxRetries then
      match fn i with
      | .ok a => .ok a (i + 1)
      | .error e =>
        if i = maxRetries - 1 then .err e (i + 1)
        else withRetryGo fn maxRetries (i + 1) fuel
    else .generic i

/-- `withRetry` of `src/utils/retry.ts`, with the attempt outcomes supplied
as `fn`. -/
def withRetry {ε α : Type} (fn : Nat → Except ε α) (maxRetries : Nat) : RetryResult ε α :=
  withRetryGo fn maxRetries 0 maxRetries

/-! ## `src/utils/retry.ts` — `ProblemCache`

The JS `Map<string, CacheEntry>` is modelled extensionally as a function from
keys to optional entries (`set` overwrites, `delete` removes, `get` looks
up); `Date.now()` is passed in explicitly at each call. -/

/-- `CACHE_DURATION = 1000 * 60 * 60` (one hour, in milliseconds). -/
def CACHE_DURATION : Int := 1000 * 60 * 60

/-- The generation mode union type `'PROBLEM' | 'FLASHCARDS' | 'QUIZ'`. -/
inductive GenerationMode where
  | PROBLEM
  | FLASHCARDS
  | QUIZ
deriving DecidableEq

/-- The string a `GenerationMode` value interpolates to. -/
def modeString : GenerationMode → String
  | .PROBLEM => "PROBLEM"
  | .FLASHCARDS => "FLASHCARDS"
  | .QUIZ => "QUIZ"

/-- A `CacheEntry` of `types.ts`: key, stored data and insertion timestamp. -/
structure CacheEntry (V : Type) where
  key : String
  data : V
  timestamp : Int

/-- The map state of a `ProblemCache`. -/
def CacheMap (V : Type) := String → Option (CacheEntry V)

/-- The empty map a fresh `ProblemCache` starts with (the exported
`problemCache` singleton is `new ProblemCache()`). -/
def problemCacheInit (V : Type) : CacheMap V := fun _ => none

/-- JS `Map.set`. -/
def mapSet {V : Type} (m : CacheMap V) (k : String) (v : CacheEntry V) : CacheMap V :=
  fun k' => if k' = k then some v else m k'

/-- JS `Map.delete`. -/
def mapDelete {V : Type} (m : CacheMap V) (k : String) : CacheMap V :=
  fun k' => if k' = k then none else m k'

/-- `ProblemCache.generateKey`: `` `${mode}:${difficulty}:${topic.toLowerCase().trim()}` ``.
The `difficulty` number is an integer at every call site; `${difficulty}`
renders it in decimal (`Int.repr`).  `mode` ranges over the `GenerationMode`
union. -/
def generateKey (topic : String) (difficulty : Int) (mode : GenerationMode) : String :=
  modeString mode ++ ":" ++ Int.repr difficulty ++ ":" ++ jsTrimStr (jsToLower topic)

/-- `ProblemCache.get` at time `now`: returns the un-expired entry's data, and
deletes an expired entry as a side effect.  The pair is (returned value,
map state after the call). -/
def cacheGet {V : Type} (m : CacheMap V) (topic : String) (difficulty : Int)
    (mode : GenerationMode) (now : Int) : Option V × CacheMap V :=
  let key := generateKey topic difficulty mode
  match m key with
  | none => (none, m)
  | some entry =>
    if now - entry.timestamp > CACHE_DURATION then (none, mapDelete m key)
    else (some entry.data, m)

/-- `ProblemCache.set` at time `now`. -/
def cacheSet {V : Type} (m : CacheMap V) (topic : String) (difficulty : Int)
    (mode : GenerationMode) (data : V) (now : Int) : CacheMap V :=
  let key := generateKey topic difficulty mode
  mapSet m key { key := key, data := data, timestamp := now }

/-- `ProblemCache.cleanup` at time `now`: drop every expired entry. -/
def cacheCleanup {V : Type} (m : CacheMap V) (now : Int) : CacheMap V :=
  fun k =>
    match m k with
    | some e => if now - e.timestamp > CACHE_DURATION then none else some e
    | none => none

/-- `ProblemCache.clear`. -/
def cacheClear (V : Type) : CacheMap V := fun _ => none

/-! ## `src/services/gemini.ts` — data types -/

/-- A context attachment (`FileData` of `types.ts`). -/
structure FileData where
  name : String
  base64 : String
  mimeType : String
deriving DecidableEq

/-- The `usageMetadata` of a backend response. -/
structure UsageMetadata where
  promptTokenCount : Option Nat
  candidatesTokenCount : Option Nat
deriving DecidableEq

/-- A backend `generateContent` response as the pipeline consumes it:
`response.text` (possibly absent) and the usage counters. -/
structure GenResponse where
  text : Option String
  usageMetadata : Option UsageMetadata
deriving DecidableEq

/-- A flashcard (`Flashcard` of `types.ts`). -/
structure Flashcard where
  id : Int
  front : String
  back : String
  category : String
deriving DecidableEq

/-- A quiz question (`QuizQuestion` of `types.ts`). -/
structure QuizQuestion where
  id : Int
  question : String
  options : List String
  correctAnswer : Int
  explanation : String
deriving DecidableEq

/-- `DebugMetrics` of `types.ts`. -/
structure DebugMetrics where
  latencyMs : Int
  inputTokens : Nat
  outputTokens : Nat
  model : String
deriving DecidableEq

/-- The `DebugUpdate` argument of the `onProgress` callback
(`gemini.ts` lines 66–70): all three fields optional. -/
structure DebugUpdate where
  analystReport : Option String
  debugPrompt : Option String
  model : Option String
deriving DecidableEq

/-- The `Partial<MathProblemState>` record `generateMathContent` builds
(every field it may set; unset fields are `none`). -/
structure PartialState where
  mode : Option GenerationMode
  analystReport : Option String
  rawResponse : Option String
  debugPrompt : Option String
  flashcards : Option (List Flashcard)
  quiz : Option (List QuizQuestion)
  debugMetrics : Option DebugMetrics
deriving DecidableEq

/-- The full `MathProblemState` record assembled by `handleGenerate` in
`App.tsx` (lines 132–150). -/
structure MathProblemState where
  mode : GenerationMode
  problem : Option String
  difficultyAnalysis : Option String
  solution : Option String
  finalResult : Option String
  pythonCode : Option String
  rawResponse : Option String
  analystReport : Option String
  debugPrompt : Option String
  debugMetrics : Option DebugMetrics
  flashcards : Option (List Flashcard)
  quiz : Option (List QuizQuestion)
deriving DecidableEq

/-- Observable events of one `generateMathContent` run: each `onProgress`
invocation (with the exact update passed), and each backend invocation. -/
inductive PipeEvent where
  | progress (u : DebugUpdate)
  | analystCall
  | generatorCall (mode : GenerationMode)
deriving DecidableEq

/-- Oracle for everything outside the pipeline's own code: the backend
responses (per retry attempt for the generator calls), the JS `JSON.parse`
deserializer for the structured modes, and the two `Date.now()` readings. -/
structure GeminiEnv where
  analystResp : Except String GenResponse
  architectResp : Nat → Except String GenResponse
  flashResp : Nat → Except String GenResponse
  quizResp : Nat → Except String GenResponse
  jsonParseFlashcards : String → Except String (List Flashcard)
  jsonParseQuiz : String → Except String (List QuizQuestion)
  startTime : Int
  endTime : Int

/-! ## `src/services/gemini.ts` — helper functions -/

/-- JS `a || b` for an optional string (`undefined` and `""` are falsy). -/
def jsOrStr (o : Option String) (dflt : String) : String :=
  match o with
  | none => dflt
  | some t => if t = "" then dflt else t

/-- JS `a || b` for a (present) string. -/
def jsOrLit (s dflt : String) : String := if s = "" then dflt else s

/-- `getAnalystSummary` (lines 74–109): early fixed fallback when there is no
context, the `response.text || "Analysis failed."` read on success, and the
fixed catch-branch fallback on backend failure.  The `Bool` records whether
the backend was called. -/
def getAnalystSummary (topic : String) (files : List FileData)
    (resp : Except String GenResponse) : String × Bool :=
  if files.length = 0 ∧ topic = "" then
    ("No specific context provided. Generate a general problem.", false)
  else
    match resp with
    | .ok r => (jsOrStr r.text "Analysis failed.", true)
    | .error _ => ("Analyst could not extract context. Proceed with raw user topic.", true)

/-- Keyword-alternation `RegExp.test` over the lowercased context. -/
def keywordTest (kws : List String) (context : List Char) : Bool :=
  kws.any fun k => hasSubstr k.data context

/-- The domain annotation computed inside `getDifficultyInstruction`
(lines 120–131): first matching keyword set wins. -/
def domainContextOf (topic contextSummary : String) : String :=
  let context := (jsToLower (topic ++ " " ++ contextSummary)).data
  let isCalculus := keywordTest ["calculus", "derivative", "integral", "limit", "continuity"] context
  let isAlgebra := keywordTest ["algebra", "polynomial", "equation", "matrix", "linear"] context
  let isGeometry := keywordTest ["geometry", "triangle", "circle", "angle", "area", "volume"] context
  let isProof := keywordTest ["proof", "theorem", "lemma", "induction", "logic"] context
  if isCalculus then " (Calculus domain)"
  else if isAlgebra then " (Algebra domain)"
  else if isGeometry then " (Geometry domain)"
  else if isProof then " (Proof-based)"
  else ""

/-- `getDifficultyInstruction` (lines 119–139; the closure captures `topic`).
Levels 1–5 each produce a fixed instruction; every other value falls through
to the final `return`. -/
def getDifficultyInstruction (topic contextSummary : String) (level : Int) : String :=
  let domainContext := domainContextOf topic contextSummary
  if level = 1 then
    "Create a problem of EQUAL difficulty" ++ domainContext ++
      ". Focus on reinforcement and conceptual clarity. Use straightforward applications of fundamental concepts."
  else if level = 2 then
    "Create a problem slightly harder (1.2x)" ++ domainContext ++
      ". Introduce one new constraint or minor twist to the basic concept."
  else if level = 3 then
    "Create a problem 1.5x HARDER" ++ domainContext ++
      ". Combine 2-3 concepts or require multi-step reasoning."
  else if level = 4 then
    "Create a significantly harder problem (2.0x)" ++ domainContext ++
      ". Require deep insight, multiple solution stages, and creative problem-solving."
  else if level = 5 then
    "Create an OLYMPIAD-LEVEL problem" ++ domainContext ++
      ". Require abstract thinking, novel application of concepts, proof techniques, or exceptional mathematical creativity."
  else
    "Create a problem 1.5x HARDER" ++ domainContext ++ "."

/-- The analyst-pass user prompt (lines 80–86). -/
def analystPromptOf (topic : String) : String :=
  "\n    TOPIC: " ++ jsOrLit topic "Not specified" ++
  "\n    TASK: Analyze the attached materials. Identify:\n    1. Core Mathematical Topic & Concepts\n    2. Base Difficulty Level\n    3. Key Constraints / Variables\n    "

/-- The second-pass architect prompt `debugPrompt` built by `runArchitectMode`
(lines 143–153). -/
def architectPromptOf (analystSummary topic : String) (difficulty : Int) : String :=
  "\n      ### ANALYST REPORT\n      " ++ analystSummary ++
  "\n  \n      ### USER REQUEST\n      TOPIC: " ++ jsOrLit topic "See Analyst Report" ++
  "\n      DIFFICULTY LEVEL: " ++ Int.repr difficulty ++
  "/5\n      INSTRUCTION: " ++ getDifficultyInstruction topic analystSummary difficulty ++
  "\n      TASK: Based on the instruction above, create a rigorous math problem.\n      Ensure the problem is solvable and academically sound.\n    "

/-- The flashcard-mode prompt built by `runFlashcardMode` (lines 170–183). -/
def flashcardPromptOf (analystSummary topic : String) : String :=
  "\n    Based on the provided analysis, generate 5-8 \"Deep Concept\" flashcards.\n    DO NOT generate generic definitions (e.g., \"What is a derivative?\").\n    INSTEAD, generate specific application rules, \"Gotchas\", or conditions for using theorems.\n\n    Examples of Good Cards:\n    - Front: \"Condition for using L\x27Hopital\x27s Rule\" -> Back: \"Limit must be in indeterminate form 0/0 or infinity/infinity.\"\n    - Front: \"Derivative of sin(2x) (Chain Rule)\" -> Back: \"cos(2x) * 2\"\n\n    ANALYST REPORT:\n    " ++
  analystSummary ++ "\n    \n    TOPIC FOCUS: " ++ topic ++ "\n    "

/-- The quiz-mode prompt built by `runQuizMode` (lines 213–227). -/
def quizPromptOf (analystSummary topic : String) (difficulty : Int) : String :=
  "\n    Generate a " ++ (if difficulty ≥ 4 then "challenging" else "standard") ++
  " multiple-choice quiz (5 questions).\n\n    CRITICAL FORMATTING RULES:\n    1. **Use LaTeX for ALL Math:** Every variable, number, or equation MUST be wrapped in \x27$\x27 delimiters.\n       - Bad: \"Find x where x^2 = 4\"\n       - Good: \"Find $x$ where $x^2 = 4$\"\n    2. **Options:** The 4 options must also use LaTeX for math values.\n\n    ANALYST REPORT:\n    " ++
  analystSummary ++ "\n    \n    TOPIC: " ++ topic ++ "\n    DIFFICULTY: " ++ Int.repr difficulty ++ "/5\n    "

/-! ## `generateMathContent` (lines 279–336)

The value returned together with the list of observable events of the run:
each `onProgress` invocation (in order, with the exact `DebugUpdate` record
passed to it) and each backend call.  Failures of the generator stage
propagate as `Except.error`. -/

def generateMathContent (env : GeminiEnv) (topic : String) (files : List FileData)
    (difficulty : Int) (mode : GenerationMode) :
    Except String PartialState × List PipeEvent :=
  let ev0 : List PipeEvent :=
    [.progress { analystReport := none, debugPrompt := none,
                 model := some "gemini-2.5-flash (Analyst)" }]
  let a := getAnalystSummary topic files env.analystResp
  let analystSummary := a.1
  let ev1 := ev0 ++ (if a.2 then [PipeEvent.analystCall] else [])
  let secondModel : String :=
    match mode with
    | .PROBLEM => "gemini-3-pro-preview"
    | _ => "gemini-2.5-flash"
  let ev2 := ev1 ++
    [.progress { analystReport := some analystSummary, debugPrompt := none,
                 model := some secondModel }]
  let metricsOf : GenResponse → DebugMetrics := fun resp =>
    { latencyMs := env.endTime - env.startTime
    , inputTokens := (resp.usageMetadata.bind UsageMetadata.promptTokenCount).getD 0
    , outputTokens := (resp.usageMetadata.bind UsageMetadata.candidatesTokenCount).getD 0
    , model := secondModel }
  match mode with
  | .PROBLEM =>
    let r := withRetry env.architectResp 3
    let evs := ev2 ++ List.replicate r.calls (PipeEvent.generatorCall .PROBLEM)
    match r with
    | .ok resp _ =>
      (.ok { mode := some .PROBLEM
           , analystReport := some analystSummary
           , rawResponse := resp.text
           , debugPrompt := some (architectPromptOf analystSummary topic difficulty)
           , flashcards := none
           , quiz := none
           , debugMetrics := some (metricsOf resp) }, evs)
    | .err e _ => (.error e, evs)
    | .generic _ => (.error "Max retries exceeded", evs)
  | .FLASHCARDS =>
    let r := withRetry env.flashResp 3
    let evs := ev2 ++ List.replicate r.calls (PipeEvent.generatorCall .FLASHCARDS)
    match r with
    | .ok resp _ =>
      match env.jsonParseFlashcards (jsOrStr resp.text "[]") with
      | .ok cards =>
        (.ok { mode := some .FLASHCARDS
             , analystReport := some analystSummary
             , rawResponse := none
             , debugPrompt := some (flashcardPromptOf analystSummary topic)
             , flashcards := some cards
             , quiz := none
             , debugMetrics := some (metricsOf resp) }, evs)
      | .error e => (.error e, evs)
    | .err e _ => (.error e, evs)
    | .generic _ => (.error "Max retries exceeded", evs)
  | .QUIZ =>
    let r := withRetry env.quizResp 3
    let evs := ev2 ++ List.replicate r.calls (PipeEvent.generatorCall .QUIZ)
    match r with
    | .ok resp _ =>
      match env.jsonParseQuiz (jsOrStr resp.text "[]") with
      | .ok questions =>
        (.ok { mode := some .QUIZ
             , analystReport := some analystSummary
             , rawResponse := none
             , debugPrompt := some (quizPromptOf analystSummary topic difficulty)
             , flashcards := none
             , quiz := some questions
             , debugMetrics := some (metricsOf resp) }, evs)
      | .error e => (.error e, evs)
    | .err e _ => (.error e, evs)
    | .generic _ => (.error "Max retries exceeded", evs)

/-- `generateMathContent` never references the `problemCache` singleton
(`gemini.ts` imports only `withRetry` from `utils/retry`), so threading the
cache heap state through a run leaves it untouched on every path.  This pairs
the run's result with the (unchanged) cache state. -/
def generateMathContentWithCache (env : GeminiEnv) (topic : String) (files : List FileData)
    (difficulty : Int) (mode : GenerationMode) (cache : CacheMap MathProblemState) :
    (Except String PartialState × List PipeEvent) × CacheMap MathProblemState :=
  (generateMathContent env topic files difficulty mode, cache)

/-- The `finalData` record assembled by `handleGenerate` in `App.tsx`
(lines 132–150): null parse fields by default, `rawResponse || null`, and —
for a PROBLEM run with truthy raw text — the spread of the
`parseGeminiResponse` output over those fields. -/
def buildFinalData (mode : GenerationMode) (resultData : PartialState) : MathProblemState :=
  let finalData : MathProblemState :=
    { mode := mode
    , problem := none
    , difficultyAnalysis := none
    , solution := none
    , finalResult := none
    , pythonCode := none
    , rawResponse := match resultData.rawResponse with
                     | some s => if s = "" then none else some s
                     | none => none
    , analystReport := resultData.analystReport
    , debugPrompt := resultData.debugPrompt
    , debugMetrics := resultData.debugMetrics
    , flashcards := resultData.flashcards
    , quiz := resultData.quiz }
  match mode, resultData.rawResponse with
  | .PROBLEM, some raw =>
    if raw = "" then finalData
    else
      let parsed := parseGeminiResponse raw.data
      { finalData with
        problem := parsed.problem.map List.asString
      , difficultyAnalysis := parsed.difficultyAnalysis.map List.asString
      , solution := parsed.solution.map List.asString
      , finalResult := parsed.finalResult.map List.asString
      , pythonCode := parsed.pythonCode.map List.asString
      , rawResponse := some parsed.rawResponse.asString }
  | _, _ => finalData

/-! ## Helper lemmas -/

/-- Full unfolding of a three-attempt `withRetry` run. -/
theorem withRetry3_unfold {ε α : Type} (fn : Nat → Except ε α) :
    withRetry fn 3 =
      match fn 0 with
      | .ok a => .ok a 1
      | .error _ =>
        match fn 1 with
        | .ok a => .ok a 2
        | .error _ =>
          match fn 2 with
          | .ok a => .ok a 3
          | .error e => .err e 3 := by
  rfl

/-- A three-attempt run always invokes the operation at least once. -/
theorem withRetry3_calls_pos {ε α : Type} (fn : Nat → Except ε α) :
    1 ≤ (withRetry fn 3).calls := by
  rw [withRetry3_unfold]
  cases fn 0 with
  | ok a => simp [RetryResult.calls]
  | error e =>
    cases fn 1 with
    | ok a => simp [RetryResult.calls]
    | error e =>
      cases fn 2 with
      | ok a => simp [RetryResult.calls]
      | error e => simp [RetryResult.calls]

/-! ## C5 — retry bound and last-error propagation -/

/-- C5: with `maxRetries = 3`, `withRetry` invokes the operation at most
three times; a first-attempt success is returned after exactly one
invocation; and when all three attempts fail, the rejection is exactly the
third attempt's own error (the `err` constructor carries the unwrapped
error, unlike the generic `'Max retries exceeded'` outcome). -/
theorem c5_withRetry_bound {ε α : Type} :
    (∀ fn : Nat → Except ε α, (withRetry fn 3).calls ≤ 3)
    ∧ (∀ (fn : Nat → Except ε α) (a : α), fn 0 = .ok a → withRetry fn 3 = .ok a 1)
    ∧ (∀ (fn : Nat → Except ε α) (e₀ e₁ e₂ : ε),
        fn 0 = .error e₀ → fn 1 = .error e₁ → fn 2 = .error e₂ →
        withRetry fn 3 = .err e₂ 3) := by
  refine ⟨fun fn => ?_, fun fn a h0 => ?_, fun fn e₀ e₁ e₂ h0 h1 h2 => ?_⟩
  · rw [withRetry3_unfold]
    cases fn 0 with
    | ok a => simp [RetryResult.calls]
    | error e =>
      cases fn 1 with
      | ok a => simp [RetryResult.calls]
      | error e =>
        cases fn 2 with
        | ok a => simp [RetryResult.calls]
        | error e => simp [RetryResult.calls]
  · rw [withRetry3_unfold, h0]
  · rw [withRetry3_unfold, h0, h1, h2]

/-- C5 witness: a first-attempt success and an all-attempts-failure run. -/
theorem c5_withRetry_bound_witness :
    withRetry (fun _ => (Except.ok 7 : Except String Nat)) 3 = .ok 7 1
    ∧ withRetry (fun i => (Except.error (Nat.repr i) : Except String Nat)) 3 = .err "2" 3 :=
  ⟨c5_withRetry_bound.2.1 _ 7 rfl, c5_withRetry_bound.2.2 _ "0" "1" "2" rfl rfl rfl⟩

/-! ## C8 — the analyst stage degrades instead of failing -/

/-- C8: `getAnalystSummary` is total (it returns a summary string in every
case rather than propagating an error).  With empty topic and no attachments
it returns the fixed no-context string without calling the backend (the
`false` component); whenever the backend call throws, it returns the fixed
analysis-failed fallback string (having called the backend — the `true`
component). -/
theorem c8_analyst_degrades :
    (∀ resp : Except String GenResponse,
      getAnalystSummary "" [] resp
        = ("No specific context provided. Generate a general problem.", false))
    ∧ (∀ (topic : String) (files : List FileData) (e : String),
        ¬(files.length = 0 ∧ topic = "") →
        getAnalystSummary topic files (.error e)
          = ("Analyst could not extract context. Proceed with raw user topic.", true)) := by
  constructor
  · intro resp
    simp [getAnalystSummary]
  · intro topic files e h
    unfold getAnalystSummary
    rw [if_neg h]

/-- C8 witness: a failing backend call with a non-empty topic resolves with
the fixed fallback. -/
theorem c8_analyst_degrades_witness :
    getAnalystSummary "derivatives" [] (.error "network down")
      = ("Analyst could not extract context. Proceed with raw user topic.", true) :=
  c8_analyst_degrades.2 "derivatives" [] "network down" (by decide)

/-! ## C3 — out-of-range difficulty fallback -/

/-- C3 counterexample: the fallback instruction for difficulty `0` is not the
level-3 instruction text (it lacks the `Combine 2-3 concepts or require
multi-step reasoning.` sentence). -/
theorem c3_counterexample :
    getDifficultyInstruction "" "" 0 ≠ getDifficultyInstruction "" "" 3 := by
  decide

/-- C3 (amended): for every difficulty outside the integers 1..5, the
PROBLEM-mode instruction is the fixed fallback
`Create a problem 1.5x HARDER<domain>.` — the level-3 scaling sentence, a
proper prefix of the level-3 instruction — and appending the omitted
`Combine 2-3 concepts or require multi-step reasoning.` sentence recovers
the level-3 instruction exactly. -/
theorem c3_difficulty_fallback (level : Int) (topic contextSummary : String)
    (h : level < 1 ∨ 5 < level) :
    getDifficultyInstruction topic contextSummary level
      = "Create a problem 1.5x HARDER" ++ domainContextOf topic contextSummary ++ "."
    ∧ getDifficultyInstruction topic contextSummary level
        ++ " Combine 2-3 concepts or require multi-step reasoning."
      = getDifficultyInstruction topic contextSummary 3 := by
  have h1 : level ≠ 1 := by omega
  have h2 : level ≠ 2 := by omega
  have h3 : level ≠ 3 := by omega
  have h4 : level ≠ 4 := by omega
  have h5 : level ≠ 5 := by omega
  constructor
  · simp [getDifficultyInstruction, h1, h2, h3, h4, h5]
  · simp only [getDifficultyInstruction, h1, h2, h3, h4, h5, if_false, if_neg,
      reduceIte]
    rw [String.append_assoc]
    rfl

/-- C3 witness: difficulty `0` with a calculus topic. -/
theorem c3_difficulty_fallback_witness :
    getDifficultyInstruction "derivatives and integrals" "Calculus summary." 0
      = "Create a problem 1.5x HARDER"
          ++ domainContextOf "derivatives and integrals" "Calculus summary." ++ "."
    ∧ getDifficultyInstruction "derivatives and integrals" "Calculus summary." 0
        ++ " Combine 2-3 concepts or require multi-step reasoning."
      = getDifficultyInstruction "derivatives and integrals" "Calculus summary." 3 :=
  c3_difficulty_fallback 0 "derivatives and integrals" "Calculus summary."
    (Or.inl (by decide))

/-! ## C6 — cache TTL -/

/-- C6: an entry stored at time `T` is returned by `get` whenever
`now - T ≤ CACHE_DURATION` (60 minutes) with the map unchanged, and is absent
whenever `now - T > CACHE_DURATION`, in which case the lookup also removes
the entry from the map. -/
theorem c6_cache_ttl {V : Type} (m : CacheMap V) (topic : String) (difficulty : Int)
    (mode : GenerationMode) (data : V) (T now : Int) :
    (now - T ≤ CACHE_DURATION →
      cacheGet (cacheSet m topic difficulty mode data T) topic difficulty mode now
        = (some data, cacheSet m topic difficulty mode data T))
    ∧ (CACHE_DURATION < now - T →
      (cacheGet (cacheSet m topic difficulty mode data T) topic difficulty mode now).1 = none
      ∧ (cacheGet (cacheSet m topic difficulty mode data T) topic difficulty mode now).2
          (generateKey topic difficulty mode) = none) := by
  constructor
  · intro h
    simp [cacheGet, cacheSet, mapSet, not_lt.mpr h]
  · intro h
    constructor
    · simp [cacheGet, cacheSet, mapSet, h]
    · simp [cacheGet, cacheSet, mapSet, mapDelete, h]

/-- C6 witness: stored at `T = 0`, present at `T + 59min`, absent (and
evicted) at `T + 61min`. -/
theorem c6_cache_ttl_witness :
    cacheGet (cacheSet (problemCacheInit Nat) "Calculus" 3 .PROBLEM 42 0)
        "Calculus" 3 .PROBLEM (59 * 60 * 1000)
      = (some 42, cacheSet (problemCacheInit Nat) "Calculus" 3 .PROBLEM 42 0)
    ∧ (cacheGet (cacheSet (problemCacheInit Nat) "Calculus" 3 .PROBLEM 42 0)
        "Calculus" 3 .PROBLEM (61 * 60 * 1000)).1 = none :=
  ⟨(c6_cache_ttl (problemCacheInit Nat) "Calculus" 3 .PROBLEM 42 0 (59 * 60 * 1000)).1
      (by decide),
   ((c6_cache_ttl (problemCacheInit Nat) "Calculus" 3 .PROBLEM 42 0 (61 * 60 * 1000)).2
      (by decide)).1⟩

/-! ## C4 — parsing the exact §6 template -/

/-- The PROBLEM-mode markdown template of spec §6 with its placeholders
filled and the literal result `42` placed inside `\boxed{...}`. -/
def fixtureC4 : String :=
"## Generated Problem
### Problem Statement
A cube-shaped tank is being filled with water.
* $V = 100$
* $k = 3$

**Goal:** Find the rate of change of the side length.

## Difficulty Analysis
This problem blends related rates with geometry at a moderate level.

## Step-by-Step Solution
### Step 1: Relate the quantities
We express the volume in terms of the side length.
$$ V = s^3 $$

### Step 2: Differentiate
Apply the chain rule with respect to time.
$$ 42 = 3 s^2 $$

### Final Answer
$$ \\boxed{42} $$

## Visualization Code (Python)
```python
sides = [1, 2, 3]
volumes = [s ** 3 for s in sides]
print(volumes)
```"

set_option maxRecDepth 100000 in
/-- C4: parsing the exact §6 template yields non-null problem, solution and
finalResult fields, and the finalResult text contains `\boxed{42}` — the
boxed expression enclosing exactly the literal result placed in the
template. -/
theorem c4_parser_on_template :
    (parseGeminiResponse fixtureC4.data).problem.isSome = true
    ∧ (parseGeminiResponse fixtureC4.data).solution.isSome = true
    ∧ (parseGeminiResponse fixtureC4.data).finalResult = some "$$ \\boxed{42} $$".data
    ∧ "\\boxed{42}".data <:+: "$$ \\boxed{42} $$".data := by
  refine ⟨by decide, by decide, by decide, by decide⟩

/-! ## C2 — the progress callback never receives the prompt -/

/-- Does this event pass a `debugPrompt` to the progress callback? -/
def progressHasPrompt : PipeEvent → Bool
  | .progress u => u.debugPrompt.isSome
  | _ => false

theorem any_replicate_false {α : Type} (p : α → Bool) (n : Nat) (a : α)
    (h : p a = false) : (List.replicate n a).any p = false := by
  induction n with
  | zero => simp
  | succ k ih => simp [List.replicate_succ, h, ih]

theorem any_ite_single_false {α : Type} (p : α → Bool) (b : Bool) (x : α)
    (h : p x = false) : (if b = true then [x] else []).any p = false := by
  cases b <;> simp [h]

/-- C2 (refuting the claim): on every run of `generateMathContent` — any
backend behaviour, any mode — no invocation of the progress callback carries
a `debugPrompt` field.  The second-pass prompt is never notified to the
callback; it reaches the caller only in the returned result. -/
theorem c2_progress_never_carries_prompt (env : GeminiEnv) (topic : String)
    (files : List FileData) (difficulty : Int) (mode : GenerationMode) :
    ((generateMathContent env topic files difficulty mode).2.any progressHasPrompt)
      = false := by
  unfold generateMathContent
  cases mode
  case PROBLEM =>
    rcases hr : withRetry env.architectResp 3 with ⟨resp, n⟩ | ⟨e, n⟩ | ⟨n⟩ <;>
      simp [hr, List.any_append, progressHasPrompt, any_replicate_false,
        any_ite_single_false]
  case FLASHCARDS =>
    rcases hr : withRetry env.flashResp 3 with ⟨resp, n⟩ | ⟨e, n⟩ | ⟨n⟩
    · rcases hp : env.jsonParseFlashcards (jsOrStr resp.text "[]") with ⟨e⟩ | ⟨cards⟩ <;>
        simp [hr, hp, List.any_append, progressHasPrompt, any_replicate_false,
          any_ite_single_false]
    · simp [hr, List.any_append, progressHasPrompt, any_replicate_false,
        any_ite_single_false]
    · simp [hr, List.any_append, progressHasPrompt, any_replicate_false,
        any_ite_single_false]
  case QUIZ =>
    rcases hr : withRetry env.quizResp 3 with ⟨resp, n⟩ | ⟨e, n⟩ | ⟨n⟩
    · rcases hp : env.jsonParseQuiz (jsOrStr resp.text "[]") with ⟨e⟩ | ⟨questions⟩ <;>
        simp [hr, hp, List.any_append, progressHasPrompt, any_replicate_false,
          any_ite_single_false]
    · simp [hr, List.any_append, progressHasPrompt, any_replicate_false,
        any_ite_single_false]
    · simp [hr, List.any_append, progressHasPrompt, any_replicate_false,
        any_ite_single_false]

/-! ## C9 — mode exclusivity; quiz shape is not validated -/

/-- C9 counterexample environment: the quiz backend returns the JSON text
`[]`, which deserializes to an empty question list. -/
def c9Env : GeminiEnv where
  analystResp := .ok { text := some "Quiz context.", usageMetadata := none }
  architectResp := fun _ => .error "unused"
  flashResp := fun _ => .error "unused"
  quizResp := fun _ =>
    .ok { text := some "[]"
        , usageMetadata := some { promptTokenCount := some 12, candidatesTokenCount := some 3 } }
  jsonParseFlashcards := fun _ => .error "unused"
  jsonParseQuiz := fun s => if s = "[]" then .ok [] else .error "SyntaxError"
  startTime := 0
  endTime := 1500

set_option maxRecDepth 10000 in
/-- C9 counterexample: a QUIZ run that succeeds with zero questions (the
backend's `[]` payload is stored unvalidated), contradicting "always contains
exactly 5 questions". -/
theorem c9_counterexample :
    ((generateMathContent c9Env "algebra" [] 3 .QUIZ).1.toOption.bind
        PartialState.quiz).map List.length = some 0 := by
  decide

/-- C9 (amended): every successful run populates only its own mode's content
fields — a QUIZ result has no raw response, no flashcards and a populated
question list (and its assembled `MathProblemState` has null
problem/solution/rawResponse and no flashcards); a PROBLEM result has no quiz
and no flashcards; a FLASHCARDS result has no quiz, no raw response and a
populated card list.  The quiz question list is stored exactly as
deserialized, with no 5-question/4-option validation. -/
theorem c9_mode_exclusivity :
    (∀ (env : GeminiEnv) (topic : String) (files : List FileData) (difficulty : Int)
        (r : PartialState),
      (generateMathContent env topic files difficulty .QUIZ).1 = .ok r →
      r.rawResponse = none ∧ r.flashcards = none ∧ r.quiz.isSome = true
      ∧ (buildFinalData .QUIZ r).problem = none
      ∧ (buildFinalData .QUIZ r).solution = none
      ∧ (buildFinalData .QUIZ r).rawResponse = none
      ∧ (buildFinalData .QUIZ r).flashcards = none)
    ∧ (∀ (env : GeminiEnv) (topic : String) (files : List FileData) (difficulty : Int)
        (r : PartialState),
      (generateMathContent env topic files difficulty .PROBLEM).1 = .ok r →
      r.quiz = none ∧ r.flashcards = none)
    ∧ (∀ (env : GeminiEnv) (topic : String) (files : List FileData) (difficulty : Int)
        (r : PartialState),
      (generateMathContent env topic files difficulty .FLASHCARDS).1 = .ok r →
      r.quiz = none ∧ r.rawResponse = none ∧ r.flashcards.isSome = true) := by
  refine ⟨fun env topic files difficulty r h => ?_,
          fun env topic files difficulty r h => ?_,
          fun env topic files difficulty r h => ?_⟩
  · revert h
    unfold generateMathContent
    rcases hr : withRetry env.quizResp 3 with ⟨resp, n⟩ | ⟨e, n⟩ | ⟨n⟩ <;> simp [hr]
    rcases hp : env.jsonParseQuiz (jsOrStr resp.text "[]") with ⟨e⟩ | ⟨questions⟩ <;>
      simp [hp]
    intro h
    subst h
    simp [buildFinalData]
  · revert h
    unfold generateMathContent
    rcases hr : withRetry env.architectResp 3 with ⟨resp, n⟩ | ⟨e, n⟩ | ⟨n⟩ <;> simp [hr]
    intro h
    subst h
    simp
  · revert h
    unfold generateMathContent
    rcases hr : withRetry env.flashResp 3 with ⟨resp, n⟩ | ⟨e, n⟩ | ⟨n⟩ <;> simp [hr]
    rcases hp : env.jsonParseFlashcards (jsOrStr resp.text "[]") with ⟨e⟩ | ⟨cards⟩ <;>
      simp [hp]
    intro h
    subst h
    simp

/-- The `PartialState` value produced by the C9 counterexample run. -/
def c9Result : PartialState where
  mode := some .QUIZ
  analystReport := some "Quiz context."
  rawResponse := none
  debugPrompt := some (quizPromptOf "Quiz context." "algebra" 3)
  flashcards := none
  quiz := some []
  debugMetrics := some { latencyMs := 1500, inputTokens := 12, outputTokens := 3,
                         model := "gemini-2.5-flash" }

set_option maxRecDepth 100000 in
/-- C9 witness: the successful QUIZ run of the counterexample environment
satisfies the amended invariant. -/
theorem c9_mode_exclusivity_witness :
    c9Result.rawResponse = none ∧ c9Result.flashcards = none
    ∧ c9Result.quiz.isSome = true
    ∧ (buildFinalData .QUIZ c9Result).problem = none
    ∧ (buildFinalData .QUIZ c9Result).solution = none
    ∧ (buildFinalData .QUIZ c9Result).rawResponse = none
    ∧ (buildFinalData .QUIZ c9Result).flashcards = none :=
  c9_mode_exclusivity.1 c9Env "algebra" [] 3 c9Result (by rfl)

/-! ## C10 — the pipeline never touches the cache -/

/-- Is this event a generator-backend invocation? -/
def isGeneratorCall : PipeEvent → Bool
  | .generatorCall _ => true
  | _ => false

theorem countP_replicate_true {α : Type} (p : α → Bool) (n : Nat) (a : α)
    (h : p a = true) : (List.replicate n a).countP p = n := by
  induction n with
  | zero => simp
  | succ k ih => simp [List.replicate_succ, List.countP_cons, h, ih]

/-- C10: threading the `problemCache` heap state through a
`generateMathContent` run leaves it unchanged, the run's outcome does not
depend on the cache contents, and every run — in particular a second run
with identical `(topic, difficulty, mode)` — still performs at least one
generator backend call. -/
theorem c10_cache_frame (env : GeminiEnv) (topic : String) (files : List FileData)
    (difficulty : Int) (mode : GenerationMode) (c c' : CacheMap MathProblemState) :
    (generateMathContentWithCache env topic files difficulty mode c).2 = c
    ∧ (generateMathContentWithCache env topic files difficulty mode c).1
        = (generateMathContentWithCache env topic files difficulty mode c').1
    ∧ 1 ≤ ((generateMathContentWithCache env topic files difficulty mode c).1.2.countP
            isGeneratorCall) := by
  refine ⟨rfl, rfl, ?_⟩
  show 1 ≤ (generateMathContent env topic files difficulty mode).2.countP isGeneratorCall
  unfold generateMathContent
  cases mode
  case PROBLEM =>
    have hc := withRetry3_calls_pos env.architectResp
    rcases hr : withRetry env.architectResp 3 with ⟨resp, n⟩ | ⟨e, n⟩ | ⟨n⟩ <;>
      rw [hr] at hc <;>
      simp only [RetryResult.calls] at hc <;>
      simp [hr, List.countP_append, countP_replicate_true, isGeneratorCall,
        RetryResult.calls] <;>
      omega
  case FLASHCARDS =>
    have hc := withRetry3_calls_pos env.flashResp
    rcases hr : withRetry env.flashResp 3 with ⟨resp, n⟩ | ⟨e, n⟩ | ⟨n⟩
    · rcases hp : env.jsonParseFlashcards (jsOrStr resp.text "[]") with ⟨e⟩ | ⟨cards⟩ <;>
        rw [hr] at hc <;>
        simp only [RetryResult.calls] at hc <;>
        simp [hr, hp, List.countP_append, countP_replicate_true, isGeneratorCall,
          RetryResult.calls] <;>
        omega
    · rw [hr] at hc
      simp only [RetryResult.calls] at hc
      simp [hr, List.countP_append, countP_replicate_true, isGeneratorCall,
        RetryResult.calls]
      omega
    · rw [hr] at hc
      simp only [RetryResult.calls] at hc
      simp [hr, List.countP_append, countP_replicate_true, isGeneratorCall,
        RetryResult.calls]
      omega
  case QUIZ =>
    have hc := withRetry3_calls_pos env.quizResp
    rcases hr : withRetry env.quizResp 3 with ⟨resp, n⟩ | ⟨e, n⟩ | ⟨n⟩
    · rcases hp : env.jsonParseQuiz (jsOrStr resp.text "[]") with ⟨e⟩ | ⟨questions⟩ <;>
        rw [hr] at hc <;>
        simp only [RetryResult.calls] at hc <;>
        simp [hr, hp, List.countP_append, countP_replicate_true, isGeneratorCall,
          RetryResult.calls] <;>
        omega
    · rw [hr] at hc
      simp only [RetryResult.calls] at hc
      simp [hr, List.countP_append, countP_replicate_true, isGeneratorCall,
        RetryResult.calls]
      omega
    · rw [hr] at hc
      simp only [RetryResult.calls] at hc
      simp [hr, List.countP_append, countP_replicate_true, isGeneratorCall,
        RetryResult.calls]
      omega

/-! ## C7 — cache key shape, case-insensitivity and injectivity

The key interpolates the difficulty number in decimal, so injectivity on the
difficulty component reduces to injectivity of the decimal rendering
(`Int.repr`), proved below via an explicit evaluation of `Nat.toDigits`. -/

theorem digitChar_isDigit : ∀ k, k < 10 → (Nat.digitChar k).isDigit = true := by
  decide

theorem digitChar_val : ∀ k, k < 10 → (Nat.digitChar k).toNat - 48 = k := by
  decide

/-- Every char `Nat.toDigitsCore 10` emits (beyond the accumulator) is a
decimal digit. -/
theorem toDigitsCore_digits (fuel : Nat) :
    ∀ (n : Nat) (acc : List Char), (∀ c ∈ acc, c.isDigit = true) →
      ∀ c ∈ Nat.toDigitsCore 10 fuel n acc, c.isDigit = true := by
  induction fuel with
  | zero =>
    intro n acc hacc c hc
    simp only [Nat.toDigitsCore] at hc
    exact hacc c hc
  | succ f ih =>
    intro n acc hacc c hc
    simp only [Nat.toDigitsCore] at hc
    have hmem : ∀ x ∈ Nat.digitChar (n % 10) :: acc, x.isDigit = true := by
      intro x hx
      rcases List.mem_cons.mp hx with hx | hx
      · rw [hx]
        exact digitChar_isDigit (n % 10) (Nat.mod_lt _ (by norm_num))
      · exact hacc x hx
    by_cases h : n / 10 = 0
    · rw [if_pos h] at hc
      exact hmem c hc
    · rw [if_neg h] at hc
      exact ih (n / 10) _ hmem c hc

/-- The accumulator of `Nat.toDigitsCore` is just appended to the emitted
digits. -/
theorem toDigitsCore_append (fuel : Nat) :
    ∀ (n : Nat) (acc : List Char),
      Nat.toDigitsCore 10 fuel n acc = Nat.toDigitsCore 10 fuel n [] ++ acc := by
  induction fuel with
  | zero =>
    intro n acc
    simp [Nat.toDigitsCore]
  | succ f ih =>
    intro n acc
    simp only [Nat.toDigitsCore]
    by_cases h : n / 10 = 0
    · simp [h]
    · rw [if_neg h, if_neg h, ih (n / 10) (Nat.digitChar (n % 10) :: acc),
        ih (n / 10) (Nat.digitChar (n % 10) :: [])]
      simp

/-- Decimal value of a digit string (most significant digit first). -/
def digitsVal (l : List Char) : Nat :=
  l.foldl (fun a c => 10 * a + (c.toNat - 48)) 0

theorem digitsVal_append_digit (xs : List Char) (c : Char) :
    digitsVal (xs ++ [c]) = 10 * digitsVal xs + (c.toNat - 48) := by
  simp [digitsVal, List.foldl_append]

/-- `digitsVal` recovers the number `Nat.toDigitsCore 10` rendered (with
sufficient fuel). -/
theorem digitsVal_toDigitsCore :
    ∀ (fuel n : Nat), n ≤ fuel → digitsVal (Nat.toDigitsCore 10 fuel n []) = n := by
  intro fuel
  induction fuel with
  | zero =>
    intro n hn
    interval_cases n
    simp [Nat.toDigitsCore, digitsVal]
  | succ f ih =>
    intro n hn
    simp only [Nat.toDigitsCore]
    by_cases h : n / 10 = 0
    · rw [if_pos h]
      have hlt : n < 10 := (Nat.div_eq_zero_iff (by norm_num)).mp h
      simp [digitsVal, Nat.mod_eq_of_lt hlt, digitChar_val n hlt]
    · rw [if_neg h, toDigitsCore_append]
      have hne : n ≠ 0 := by
        intro h0
        exact h (by simp [h0])
      have hdiv : n / 10 ≤ f := by
        have := Nat.div_lt_self (Nat.pos_of_ne_zero hne) (by norm_num : (1:Nat) < 10)
        omega
      rw [digitsVal_append_digit, ih (n / 10) hdiv,
        digitChar_val (n % 10) (Nat.mod_lt _ (by norm_num))]
      omega

/-- The decimal rendering of a natural number is injective. -/
theorem natRepr_inj {m n : Nat} (h : Nat.repr m = Nat.repr n) : m = n := by
  have hd : Nat.toDigitsCore 10 (m + 1) m [] = Nat.toDigitsCore 10 (n + 1) n [] :=
    congrArg String.data h
  have hm := digitsVal_toDigitsCore (m + 1) m (by omega)
  have hn := digitsVal_toDigitsCore (n + 1) n (by omega)
  rw [← hm, ← hn, hd]

/-- Every char of `Nat.repr` is a decimal digit. -/
theorem natRepr_digits (n : Nat) : ∀ c ∈ (Nat.repr n).data, c.isDigit = true := by
  intro c hc
  exact toDigitsCore_digits (n + 1) n [] (by simp) c hc

/-- `Nat.repr` never renders the empty string. -/
theorem natRepr_ne_nil (n : Nat) : (Nat.repr n).data ≠ [] := by
  show Nat.toDigitsCore 10 (n + 1) n [] ≠ []
  simp only [Nat.toDigitsCore]
  by_cases h : n / 10 = 0
  · simp [h]
  · rw [if_neg h, toDigitsCore_append]
    simp

/-- No decimal rendering of an `Int` contains a colon. -/
theorem intRepr_colonFree (i : Int) : ':' ∉ (Int.repr i).data := by
  cases i with
  | ofNat m =>
    intro hc
    have := natRepr_digits m ':' hc
    simp at this
  | negSucc m =>
    intro hc
    have hd : (Int.repr (Int.negSucc m)).data = '-' :: (Nat.repr (m + 1)).data := by
      show (("-" : String) ++ Nat.repr (m + 1)).data = _
      rw [String.data_append]
      rfl
    rw [hd] at hc
    rcases List.mem_cons.mp hc with hc | hc
    · simp at hc
    · have := natRepr_digits (m + 1) ':' hc
      simp at this

/-- The decimal rendering of an `Int` is injective. -/
theorem intRepr_inj {i j : Int} (h : Int.repr i = Int.repr j) : i = j := by
  cases i with
  | ofNat m =>
    cases j with
    | ofNat n =>
      exact congrArg Int.ofNat (natRepr_inj h)
    | negSucc n =>
      exfalso
      have hd : (Nat.repr m).data = '-' :: (Nat.repr (n + 1)).data := by
        have := congrArg String.data h
        rwa [show Int.repr (Int.ofNat m) = Nat.repr m from rfl,
          show Int.repr (Int.negSucc n) = ("-" : String) ++ Nat.repr (n + 1) from rfl,
          String.data_append] at this
      have := natRepr_digits m '-' (by rw [hd]; exact List.mem_cons_self _ _)
      simp at this
  | negSucc m =>
    cases j with
    | ofNat n =>
      exfalso
      have hd : (Nat.repr n).data = '-' :: (Nat.repr (m + 1)).data := by
        have := congrArg String.data h.symm
        rwa [show Int.repr (Int.ofNat n) = Nat.repr n from rfl,
          show Int.repr (Int.negSucc m) = ("-" : String) ++ Nat.repr (m + 1) from rfl,
          String.data_append] at this
      have := natRepr_digits n '-' (by rw [hd]; exact List.mem_cons_self _ _)
      simp at this
    | negSucc n =>
      have hd : (Nat.repr (m + 1)).data = (Nat.repr (n + 1)).data := by
        have := congrArg String.data h
        rw [show Int.repr (Int.negSucc m) = ("-" : String) ++ Nat.repr (m + 1) from rfl,
          show Int.repr (Int.negSucc n) = ("-" : String) ++ Nat.repr (n + 1) from rfl,
          String.data_append, String.data_append] at this
        exact List.cons_injective this
      have hmn := natRepr_inj (String.ext hd)
      have : m = n := by omega
      rw [this]

/-- Splitting at the first colon is unambiguous when neither prefix contains
one. -/
theorem append_colon_inj :
    ∀ (a : List Char) {x : List Char} (b : List Char) {y : List Char},
      ':' ∉ a → ':' ∉ b → a ++ ':' :: x = b ++ ':' :: y → a = b ∧ x = y := by
  intro a
  induction a with
  | nil =>
    intro x b y _ hb h
    cases b with
    | nil =>
      simp only [List.nil_append] at h
      exact ⟨rfl, (List.cons_eq_cons.mp h).2⟩
    | cons d bt =>
      exfalso
      simp only [List.nil_append, List.cons_append] at h
      have hd : ':' = d := (List.cons_eq_cons.mp h).1
      exact hb (hd ▸ List.mem_cons_self _ _)
  | cons c ct ih =>
    intro x b y ha hb h
    cases b with
    | nil =>
      exfalso
      simp only [List.nil_append, List.cons_append] at h
      have hc : c = ':' := (List.cons_eq_cons.mp h).1
      exact ha (hc ▸ List.mem_cons_self _ _)
    | cons d bt =>
      simp only [List.cons_append] at h
      have hc : c = d := (List.cons_eq_cons.mp h).1
      have ht := (List.cons_eq_cons.mp h).2
      have ha' : ':' ∉ ct := fun hm => ha (List.mem_cons_of_mem _ hm)
      have hb' : ':' ∉ bt := fun hm => hb (List.mem_cons_of_mem _ hm)
      rcases ih bt ha' hb' ht with ⟨h1, h2⟩
      exact ⟨by rw [hc, h1], h2⟩

theorem modeString_colonFree (m : GenerationMode) : ':' ∉ (modeString m).data := by
  cases m <;> decide

theorem modeString_inj {m₁ m₂ : GenerationMode}
    (h : modeString m₁ = modeString m₂) : m₁ = m₂ := by
  cases m₁ <;> cases m₂ <;> first | rfl | exact absurd h (by decide)

theorem charOfNat_toNat (n : Nat) (hv : n.isValidChar) : (Char.ofNat n).toNat = n := by
  simp [Char.ofNat, hv, Char.ofNatAux, Char.toNat, UInt32.toNat, BitVec.toNat_ofNatLt]

/-- Lower-casing after upper-casing agrees with lower-casing (ASCII). -/
theorem jsLower_upper (c : Char) : jsToLowerChar (jsToUpperChar c) = jsToLowerChar c := by
  unfold jsToUpperChar jsToLowerChar
  by_cases h : 97 ≤ c.toNat ∧ c.toNat ≤ 122
  · rw [if_pos h]
    have hv : (c.toNat - 32).isValidChar := Or.inl (by omega)
    have ht : (Char.ofNat (c.toNat - 32)).toNat = c.toNat - 32 := charOfNat_toNat _ hv
    rw [if_pos (by omega : 65 ≤ (Char.ofNat (c.toNat - 32)).toNat
        ∧ (Char.ofNat (c.toNat - 32)).toNat ≤ 90)]
    rw [if_neg (by omega : ¬(65 ≤ c.toNat ∧ c.toNat ≤ 90))]
    rw [ht]
    have hsum : c.toNat - 32 + 32 = c.toNat := by omega
    rw [hsum, Char.ofNat_toNat]
  · rw [if_neg h]

theorem jsToLower_jsToUpper (t : String) : jsToLower (jsToUpper t) = jsToLower t := by
  have hfun : jsToLowerChar ∘ jsToUpperChar = jsToLowerChar :=
    funext fun c => jsLower_upper c
  show (⟨((⟨t.data.map jsToUpperChar⟩ : String).data.map jsToLowerChar)⟩ : String)
      = (⟨t.data.map jsToLowerChar⟩ : String)
  rw [show (⟨t.data.map jsToUpperChar⟩ : String).data = t.data.map jsToUpperChar from rfl,
    List.map_map, hfun]

/-- The data of a generated cache key, split into its three components. -/
theorem generateKey_data (topic : String) (difficulty : Int) (mode : GenerationMode) :
    (generateKey topic difficulty mode).data
      = (modeString mode).data
          ++ ':' :: ((Int.repr difficulty).data
          ++ ':' :: (jsTrimStr (jsToLower topic)).data) := by
  show ((((modeString mode ++ ":") ++ Int.repr difficulty) ++ ":")
      ++ jsTrimStr (jsToLower topic)).data = _
  simp only [String.data_append]
  simp [List.append_assoc]

/-- C7: the cache key is exactly `{mode}:{difficulty}:{normalizedTopic}` with
the topic lowercased and trimmed; it is invariant under upper-casing the
topic; and two triples whose mode, difficulty, or normalized topic differ
produce different keys (key equality forces all three components to
agree). -/
theorem c7_cache_key :
    (∀ (mode : GenerationMode) (difficulty : Int) (topic : String),
      generateKey topic difficulty mode
        = modeString mode ++ ":" ++ Int.repr difficulty ++ ":"
            ++ jsTrimStr (jsToLower topic))
    ∧ (∀ (mode : GenerationMode) (difficulty : Int) (topic : String),
      generateKey topic difficulty mode = generateKey (jsToUpper topic) difficulty mode)
    ∧ (∀ (m₁ m₂ : GenerationMode) (d₁ d₂ : Int) (t₁ t₂ : String),
      generateKey t₁ d₁ m₁ = generateKey t₂ d₂ m₂ →
      m₁ = m₂ ∧ d₁ = d₂ ∧ jsTrimStr (jsToLower t₁) = jsTrimStr (jsToLower t₂)) := by
  refine ⟨fun mode difficulty topic => rfl, fun mode difficulty topic => ?_, ?_⟩
  · unfold generateKey
    rw [jsToLower_jsToUpper]
  · intro m₁ m₂ d₁ d₂ t₁ t₂ h
    have hd := congrArg String.data h
    rw [generateKey_data, generateKey_data] at hd
    rcases append_colon_inj _ _ (modeString_colonFree m₁) (modeString_colonFree m₂) hd
      with ⟨h1, h2⟩
    rcases append_colon_inj _ _ (intRepr_colonFree d₁) (intRepr_colonFree d₂) h2
      with ⟨h3, h4⟩
    exact ⟨modeString_inj (String.ext h1), intRepr_inj (String.ext h3), String.ext h4⟩

/-- C7 witness: two topics that differ only in case and surrounding
whitespace collide on the same key, and key equality recovers the
components. -/
theorem c7_cache_key_witness :
    generateKey "  Calculus" 3 .PROBLEM = generateKey "cALCULUS  " 3 .PROBLEM
    ∧ (GenerationMode.PROBLEM = GenerationMode.PROBLEM ∧ (3 : Int) = 3
        ∧ jsTrimStr (jsToLower "  Calculus") = jsTrimStr (jsToLower "cALCULUS  ")) :=
  ⟨by decide,
   c7_cache_key.2.2 .PROBLEM .PROBLEM 3 3 "  Calculus" "cALCULUS  " (by decide)⟩

/-! ## C1 — the solution section keeps nested `### Step` headers

The solution section's lookahead is
`(?=(?:###|##)\s*Final Answer|$|### Visualization|## Visualization)`; the
lemmas below show it anchors only on those phrases — in particular a line
starting `### Step` never terminates the section — and that a section body
free of lookahead anchors is extracted in full, so any `### Step N:` lines
inside it survive verbatim. -/

/-- The `### Step` line prefix of the step headers inside the solution body. -/
def stepMarker : List Char := "### Step".data

/-- The `## Step-by-Step Solution` header for the C1 text shape. -/
def solutionHeaderC1 : List Char := "## Step-by-Step Solution".data

/-- A recognized tail after the solution body: the Final Answer section. -/
def c1Tail : List Char := "### Final Answer\n$$ \\boxed{7} $$\n".data

theorem litIsPrefixB_cons_inv {p : Char} {ps s : List Char}
    (h : litIsPrefixB (p :: ps) s = true) :
    ∃ t, s = p :: t ∧ litIsPrefixB ps t = true := by
  cases s with
  | nil => simp [litIsPrefixB] at h
  | cons c cs =>
    simp only [litIsPrefixB, Bool.and_eq_true, beq_iff_eq] at h
    exact ⟨cs, by rw [h.1], h.2⟩

theorem ciIsPrefixB_self_append (pat r : List Char) :
    ciIsPrefixB pat (pat ++ r) = true := by
  induction pat with
  | nil => simp [ciIsPrefixB]
  | cons c ct ih => simp [ciIsPrefixB, ciEq, ih]

/-- A suffix that starts with `### Step` never satisfies the solution
section's lookahead: it is not empty, it does not match
`(?:###|##)\s*Final Answer`, and it is not one of the Visualization
literals. -/
theorem stepLine_not_sectionEnd (s : List Char)
    (h : litIsPrefixB stepMarker s = true) :
    sectionEnd (some [finalAnswerP]) s = false := by
  rw [show stepMarker = '#' :: '#' :: '#' :: ' ' :: 'S' :: 't' :: 'e' :: 'p' :: [] from rfl]
    at h
  obtain ⟨t1, rfl, h1⟩ := litIsPrefixB_cons_inv h
  obtain ⟨t2, rfl, h2⟩ := litIsPrefixB_cons_inv h1
  obtain ⟨t3, rfl, h3⟩ := litIsPrefixB_cons_inv h2
  obtain ⟨t4, rfl, h4⟩ := litIsPrefixB_cons_inv h3
  obtain ⟨t5, rfl, h5⟩ := litIsPrefixB_cons_inv h4
  obtain ⟨t6, rfl, h6⟩ := litIsPrefixB_cons_inv h5
  obtain ⟨t7, rfl, h7⟩ := litIsPrefixB_cons_inv h6
  obtain ⟨t8, rfl, -⟩ := litIsPrefixB_cons_inv h7
  simp [sectionEnd, matchHeader, matchHeaderWith, matchPhrase, wsCount,
    litIsPrefixB, ciIsPrefixB, List.replicate,
    show finalAnswerP = 'F' :: "inal Answer".data from rfl,
    show visLit3 = '#' :: '#' :: '#' :: ' ' :: 'V' :: "isualization".data from rfl,
    show visLit2 = '#' :: '#' :: ' ' :: 'V' :: "isualization".data from rfl,
    show jsWs ' ' = true from by decide,
    show jsWs 'S' = false from by decide,
    show jsWs '#' = false from by decide,
    show ciEq 'F' 'S' = false from by decide,
    show ciEq 'F' '#' = false from by decide,
    show ciEq 'V' 'S' = false from by decide,
    show ciEq ' ' '#' = false from by decide,
    show ciEq '#' '#' = true from by decide,
    show ciEq ' ' ' ' = true from by decide]

/-- The lookahead of any section succeeds only at the end of the text, at a
match of that section's next-header pattern, or at one of the two
Visualization literals — never at an arbitrary position. -/
theorem sectionEnd_inv (next : List (List Char)) (s : List Char)
    (h : sectionEnd (some next) s = true) :
    s.isEmpty = true ∨ (matchHeader next s).isSome = true
    ∨ ciIsPrefixB visLit3 s = true ∨ ciIsPrefixB visLit2 s = true := by
  simp only [sectionEnd, Bool.or_eq_true] at h
  tauto

theorem findHeader_of_matchHeader (phrases : List (List Char)) (s : List Char)
    (c : Nat) (h : matchHeader phrases s = some c) :
    findHeader phrases s = some (0, c) := by
  cases s <;> simp [findHeader, h]

theorem extractSection_of_findHeader (phrases : List (List Char))
    (next : Option (List (List Char))) (text : List Char) (p c : Nat)
    (h : findHeader phrases text = some (p, c)) :
    extractSection phrases next text
      = some (jsTrim ((text.drop (p + c)).take
          (findEnd next (text.drop (p + c))))) := by
  simp [extractSection, h]

/-- When no position strictly inside `body` satisfies the lookahead and the
first position of `tail` does, the lazy group stops exactly at the
`body`/`tail` boundary. -/
theorem findEnd_append (next : Option (List (List Char))) (body tail : List Char)
    (hnt : ∀ d, d < body.length → sectionEnd next (body.drop d ++ tail) = false)
    (ht : sectionEnd next tail = true) :
    findEnd next (body ++ tail) = body.length := by
  induction body with
  | nil =>
    cases tail with
    | nil => simp [findEnd]
    | cons c t => simp [findEnd, ht]
  | cons c bt ih =>
    have h0 := hnt 0 (by simp)
    simp only [List.drop_zero] at h0
    have h0' : sectionEnd next (c :: (bt ++ tail)) = false := by simpa using h0
    have hstep : ∀ d, d < bt.length → sectionEnd next (bt.drop d ++ tail) = false := by
      intro d hd
      have := hnt (d + 1) (by simp; omega)
      simpa using this
    have hih := ih hstep
    simp only [List.cons_append, findEnd]
    rw [if_neg (by simp [h0'])]
    simp only [List.append_eq]
    rw [hih]
    simp

/-- A non-empty infix whose first char is not whitespace survives
left-trimming. -/
theorem infix_dropWhile_jsWs (step l : List Char) (hne : step ≠ [])
    (hhead : jsWs (step.headD 'x') = false) (hin : step <:+: l) :
    step <:+: l.dropWhile jsWs := by
  obtain ⟨u, v, huv⟩ := hin
  subst huv
  induction u with
  | nil =>
    cases step with
    | nil => exact absurd rfl hne
    | cons ch st =>
      simp only [List.headD_cons] at hhead
      simp only [List.nil_append, List.cons_append, List.dropWhile_cons, hhead]
      exact List.infix_append [] _ _
  | cons a ut ih =>
    simp only [List.cons_append, List.dropWhile_cons]
    by_cases hja : jsWs a = true
    · rw [if_pos hja]
      exact ih
    · rw [if_neg hja]
      exact ⟨a :: ut, v, rfl⟩

/-- A non-empty infix with non-whitespace first and last chars survives
`trim`. -/
theorem infix_jsTrim (step l : List Char) (hne : step ≠ [])
    (hhead : jsWs (step.headD 'x') = false)
    (hlast : jsWs (step.getLastD 'x') = false)
    (hin : step <:+: l) : step <:+: jsTrim l := by
  unfold jsTrim
  have h1 := infix_dropWhile_jsWs step l hne hhead hin
  have h2 : step.reverse <:+: (l.dropWhile jsWs).reverse :=
    List.reverse_infix.mpr h1
  have hner : step.reverse ≠ [] := by
    intro hr
    exact hne (by simpa using congrArg List.reverse hr)
  have hheadr : jsWs (step.reverse.headD 'x') = false := by
    cases step with
    | nil => exact absurd rfl hne
    | cons ch st =>
      rw [show (ch :: st).reverse.headD 'x' = (ch :: st).getLastD 'x' from ?_]
      · exact hlast
      · rw [List.headD_eq_head?, List.getLastD_eq_getLast?, List.head?_reverse]
  have h3 := infix_dropWhile_jsWs step.reverse _ hner hheadr h2
  have h4 : (step.reverse).reverse
      <:+: (((l.dropWhile jsWs).reverse.dropWhile jsWs)).reverse :=
    List.reverse_infix.mpr h3
  simpa using h4

/-- The solution header matches at the head of the C1 text shape, consuming
exactly the 24 chars of `## Step-by-Step Solution`. -/
theorem matchHeader_solution (r : List Char) :
    matchHeader [stepByStepSolutionP, comprehensiveSolutionP]
      (solutionHeaderC1 ++ r) = some 24 := by
  have hs : solutionHeaderC1 ++ r
      = '#' :: '#' :: ' ' :: (stepByStepSolutionP ++ r) := rfl
  have hws : wsCount (' ' :: (stepByStepSolutionP ++ r)) = 1 := by
    simp [wsCount,
      show stepByStepSolutionP = 'S' :: "tep-by-Step Solution".data from rfl,
      show jsWs ' ' = true from by decide,
      show jsWs 'S' = false from by decide]
  have hmp : matchPhrase [stepByStepSolutionP, comprehensiveSolutionP]
      (stepByStepSolutionP ++ r) = some 21 := by
    simp [matchPhrase, ciIsPrefixB_self_append,
      show stepByStepSolutionP.length = 21 from rfl]
  have h3 : matchHeaderWith 3 [stepByStepSolutionP, comprehensiveSolutionP]
      ('#' :: '#' :: ' ' :: (stepByStepSolutionP ++ r)) = none := by
    simp [matchHeaderWith, List.replicate, litIsPrefixB]
  have h2 : matchHeaderWith 2 [stepByStepSolutionP, comprehensiveSolutionP]
      ('#' :: '#' :: ' ' :: (stepByStepSolutionP ++ r)) = some 24 := by
    simp only [matchHeaderWith, List.replicate, litIsPrefixB]
    rw [if_pos (by simp)]
    simp only [List.drop_succ_cons, List.drop_zero, hws, hmp]
  rw [hs]
  simp [matchHeader, h3, h2]

/-- C1: the solution-section lookahead anchors only on the recognized
phrases — a `### Step` line never terminates the section (first two
conjuncts) — and for any solution body containing no lookahead anchor, the
parsed solution field is exactly the trimmed body, so every embedded
`### Step N:` line (any non-whitespace-delimited `step` infix of the body)
appears in it verbatim. -/
theorem c1_solution_keeps_nested_steps (body step : List Char)
    (hne : step ≠ [])
    (hhead : jsWs (step.headD 'x') = false)
    (hlast : jsWs (step.getLastD 'x') = false)
    (hin : step <:+: body)
    (hnt : ∀ d, d < body.length →
      sectionEnd (some [finalAnswerP]) (body.drop d ++ c1Tail) = false) :
    (∀ s : List Char, litIsPrefixB stepMarker s = true →
        sectionEnd (some [finalAnswerP]) s = false)
    ∧ (∀ (next : List (List Char)) (s : List Char),
        sectionEnd (some next) s = true →
        s.isEmpty = true ∨ (matchHeader next s).isSome = true
        ∨ ciIsPrefixB visLit3 s = true ∨ ciIsPrefixB visLit2 s = true)
    ∧ (parseGeminiResponse (solutionHeaderC1 ++ (body ++ c1Tail))).solution
        = some (jsTrim body)
    ∧ step <:+: jsTrim body := by
  refine ⟨stepLine_not_sectionEnd, sectionEnd_inv, ?_, ?_⟩
  · have hm := matchHeader_solution (body ++ c1Tail)
    have hf := findHeader_of_matchHeader _ _ _ hm
    show extractSection [stepByStepSolutionP, comprehensiveSolutionP]
        (some [finalAnswerP]) (solutionHeaderC1 ++ (body ++ c1Tail)) = _
    rw [extractSection_of_findHeader _ _ _ _ _ hf]
    have hdrop : (solutionHeaderC1 ++ (body ++ c1Tail)).drop (0 + 24)
        = body ++ c1Tail := by
      rw [show (0 + 24 : Nat) = solutionHeaderC1.length from rfl, List.drop_left]
    rw [hdrop, findEnd_append _ _ _ hnt (by decide), List.take_left]
  · exact infix_jsTrim step body hne hhead hlast hin

/-- A concrete solution body containing two nested `### Step N:` lines. -/
def c1Body : List Char :=
  "Intro text.\n### Step 1: Foo\nCompute the derivative.\n### Step 2: Bar\nConclude.".data

/-- One of the nested step lines. -/
def c1Step : List Char := "### Step 1: Foo".data

set_option maxRecDepth 100000 in
/-- C1 witness: for the concrete body above, the parsed solution is the full
trimmed body and the `### Step 1: Foo` line survives verbatim. -/
theorem c1_solution_keeps_nested_steps_witness :
    (parseGeminiResponse (solutionHeaderC1 ++ (c1Body ++ c1Tail))).solution
      = some (jsTrim c1Body)
    ∧ c1Step <:+: jsTrim c1Body := by
  have h := c1_solution_keeps_nested_steps c1Body c1Step (by decide) (by decide)
    (by decide) (by decide) (by decide)
  exact ⟨h.2.2.1, h.2.2.2⟩

end Calculo
